import Mathlib

/-!
Verification of the listing reconciliation engine of the ide-ai-lista-collection
repository.

The embedding models the two database tables (`listings`, `listing_details`)
as lists of rows, and the CRUD operations of `src/db/operations.py`
(`upsert_listing`, `mark_as_inactive`) together with the collectors' record
guard (`process_listing` in `src/collectors/full_scan.py` and
`src/collectors/new_listings.py`) as pure state transformers on that store.
Timestamps (`datetime.utcnow()`) and calendar dates (`date.today()`) are
threaded explicitly as natural numbers `now` and `today`.
-/

namespace ListaCollection

/-- An incoming API record (`property_data: Dict[str, Any]`).  The collectors
only ever read the keys `propertyCode` and `price`; the rest of the payload is
an opaque pass-through blob.  A missing key yields `none` (Python
`dict.get`). -/
structure PropertyData where
  propertyCode : Option String
  price : Option Int
  otherFields : List (String × String)
  deriving Repr, DecidableEq

/-- A row of the `listings` table (`src/db/models.py`, class `Listing`). -/
structure Listing where
  property_code : String
  first_seen_at : Nat
  last_seen_at : Nat
  publication_date : Option Nat
  is_active : Bool
  sold_or_withdrawn_at : Option Nat
  republished : Bool
  republished_at : Option Nat
  deriving Repr, DecidableEq

/-- A row of the `listing_details` table (`src/db/models.py`, class
`ListingDetails`).  `previous_prices` is the nullable JSONB map from calendar
date to former price; `all_fields_json` is the raw record of the latest
observation. -/
structure ListingDetails where
  property_code : String
  price : Int
  previous_prices : Option (List (Nat × Int))
  all_fields_json : PropertyData
  deriving Repr, DecidableEq

/-- The persistent store: the two tables the reconciler touches. -/
structure DB where
  listings : List Listing
  details : List ListingDetails
  deriving Repr, DecidableEq

/-- The classification returned by one reconciliation call (the `action`
strings of `upsert_listing`, plus the collectors' `skipped`). -/
inductive Action where
  | new
  | price_change
  | republished
  | active
  | skipped
  deriving Repr, DecidableEq

/-- `get_listing` of `src/db/operations.py`: first row of `listings` whose
primary key matches. -/
def get_listing (db : DB) (code : String) : Option Listing :=
  db.listings.find? (fun l => l.property_code == code)

/-- The details lookup performed inside `upsert_listing` (line 107): first row
of `listing_details` whose `property_code` matches. -/
def get_details (db : DB) (code : String) : Option ListingDetails :=
  db.details.find? (fun d => d.property_code == code)

/-- Python dict assignment `m[k] = v`: overwrite the entry at key `k` if
present, otherwise append it. -/
def setKey (m : List (Nat × Int)) (k : Nat) (v : Int) : List (Nat × Int) :=
  if m.any (fun kv => kv.1 == k) then
    m.map (fun kv => if kv.1 == k then (k, v) else kv)
  else
    m ++ [(k, v)]

/-- Lookup in the previous-prices map. -/
def getKey (m : List (Nat × Int)) (k : Nat) : Option Int :=
  (m.find? (fun kv => kv.1 == k)).map (fun kv => kv.2)

/-- The fresh `Listing` row inserted by the NEW branch of `upsert_listing`
(lines 81-89). -/
def newListing (now : Nat) (code : String) (publication_date : Option Nat) :
    Listing :=
  { property_code := code
    first_seen_at := now
    last_seen_at := now
    publication_date := publication_date
    is_active := true
    sold_or_withdrawn_at := none
    republished := false
    republished_at := none }

/-- The fresh `ListingDetails` row inserted by the NEW branch of
`upsert_listing` (lines 91-97): `previous_prices` starts out null. -/
def newDetails (code : String) (price : Int) (all_fields : PropertyData) :
    ListingDetails :=
  { property_code := code
    price := price
    previous_prices := none
    all_fields_json := all_fields }

/-- `existing_listing.last_seen_at = now` on the row with the given key
(the ORM mutation of lines 121 and 150). -/
def touchListing (now : Nat) (code : String) (ls : List Listing) :
    List Listing :=
  ls.map (fun l =>
    if l.property_code == code then { l with last_seen_at := now } else l)

/-- The REPUBLISHED mutation of lines 133-137: reactivate the row, clear the
deactivation date, set the republished flag and timestamps. -/
def republishListing (now : Nat) (code : String) (ls : List Listing) :
    List Listing :=
  ls.map (fun l =>
    if l.property_code == code then
      { l with
          is_active := true
          sold_or_withdrawn_at := none
          republished := true
          republished_at := some now
          last_seen_at := now }
    else l)

/-- `existing_details.all_fields_json = all_fields` on the row with the given
key (lines 141 and 154). -/
def refreshDetails (all_fields : PropertyData) (code : String)
    (ds : List ListingDetails) : List ListingDetails :=
  ds.map (fun d =>
    if d.property_code == code then { d with all_fields_json := all_fields }
    else d)

/-- The PRICE_CHANGE mutation of lines 113-119: record the old price in the
previous-prices map under today's date (null map read as empty, Python
`previous_prices or \x7b\x7d`), then overwrite price and raw fields. -/
def priceChangeDetails (today : Nat) (price : Int) (all_fields : PropertyData)
    (code : String) (ds : List ListingDetails) : List ListingDetails :=
  ds.map (fun d =>
    if d.property_code == code then
      { d with
          price := price
          previous_prices := some (setKey (d.previous_prices.getD []) today d.price)
          all_fields_json := all_fields }
    else d)

/-- `upsert_listing` of `src/db/operations.py` (lines 49-156), with the
ambient `datetime.utcnow()` and `date.today()` threaded as `now` and `today`.
Returns the action string together with the mutated store. -/
def upsert_listing (db : DB) (now today : Nat) (property_code : String)
    (price : Int) (all_fields : PropertyData)
    (publication_date : Option Nat) : Action × DB :=
  match get_listing db property_code with
  | none =>
      (Action.new,
        { db with
            listings := db.listings ++ [newListing now property_code publication_date]
            details := db.details ++ [newDetails property_code price all_fields] })
  | some existing_listing =>
      match get_details db property_code with
      | some existing_details =>
          if existing_details.price ≠ price then
            (Action.price_change,
              { listings := touchListing now property_code db.listings
                details := priceChangeDetails today price all_fields property_code db.details })
          else if existing_listing.is_active = false then
            (Action.republished,
              { listings := republishListing now property_code db.listings
                details := refreshDetails all_fields property_code db.details })
          else
            (Action.active,
              { listings := touchListing now property_code db.listings
                details := refreshDetails all_fields property_code db.details })
      | none =>
          if existing_listing.is_active = false then
            (Action.republished,
              { listings := republishListing now property_code db.listings
                details := db.details })
          else
            (Action.active,
              { listings := touchListing now property_code db.listings
                details := db.details })

/-- The bulk-update row mutation of `mark_as_inactive` (lines 180-186),
applied to one row. -/
def staleFlip (today scan_start : Nat) (l : Listing) : Listing :=
  if l.is_active = true ∧ l.last_seen_at < scan_start then
    { l with is_active := false, sold_or_withdrawn_at := some today }
  else l

/-- `mark_as_inactive` of `src/db/operations.py` (lines 159-194): flip every
active listing last seen strictly before the watermark, stamp today's date as
the deactivation date, and return the number of affected rows. -/
def mark_as_inactive (db : DB) (today : Nat) (scan_start_timestamp : Nat) :
    Nat × DB :=
  let affected := db.listings.filter
    (fun l => l.is_active && decide (l.last_seen_at < scan_start_timestamp))
  (affected.length,
    { db with listings := db.listings.map (staleFlip today scan_start_timestamp) })

/-- `process_listing` of the collectors (`full_scan.py` lines 58-95,
`new_listings.py` lines 110-140): skip records whose `propertyCode` or
`price` is missing or falsy (empty string, zero), otherwise upsert with
`publication_date = None`. -/
def process_listing (db : DB) (now today : Nat)
    (property_data : PropertyData) : Action × DB :=
  match property_data.propertyCode, property_data.price with
  | some code, some price =>
      if code.isEmpty || price == 0 then (Action.skipped, db)
      else upsert_listing db now today code price property_data none
  | _, _ => (Action.skipped, db)

/-- The documented invariant of the `Listing` table: a row is never seen
before it is first seen. -/
def Inv (db : DB) : Prop :=
  ∀ l ∈ db.listings, l.first_seen_at ≤ l.last_seen_at

/-! ### Sample rows for concrete evaluations -/

/-- A sample raw record for property `A1` at price 100. -/
def rawA : PropertyData :=
  { propertyCode := some "A1", price := some 100, otherFields := [] }

/-- A sample raw record for property `A1` at price 90. -/
def rawB : PropertyData :=
  { propertyCode := some "A1", price := some 90, otherFields := [] }

/-- A sample active listing row. -/
def listA : Listing :=
  { property_code := "A1", first_seen_at := 1, last_seen_at := 2,
    publication_date := none, is_active := true, sold_or_withdrawn_at := none,
    republished := false, republished_at := none }

/-- A sample deactivated listing row. -/
def listInactive : Listing :=
  { listA with is_active := false, sold_or_withdrawn_at := some 3 }

/-- A stale active listing (last seen before the sample watermark 5). -/
def listStale : Listing :=
  { listA with property_code := "B2", last_seen_at := 2 }

/-- A fresh active listing (last seen after the sample watermark 5). -/
def listFresh : Listing :=
  { listA with property_code := "C3", last_seen_at := 9 }

/-- Details row for `A1` at price 100 with no recorded price history. -/
def detA : ListingDetails :=
  { property_code := "A1", price := 100, previous_prices := none,
    all_fields_json := rawA }

/-- A store holding one active listing. -/
def dbActive : DB := { listings := [listA], details := [detA] }

/-- A store holding one deactivated listing. -/
def dbInactive : DB := { listings := [listInactive], details := [detA] }

/-- A store with a stale active, a fresh active, and an inactive listing. -/
def dbScan : DB :=
  { listings := [listStale, listFresh, listInactive], details := [] }

/-- A listing row with the republished flag set. -/
def listRepub : Listing :=
  { listA with republished := true, republished_at := some 4 }

/-- A store holding one republished listing. -/
def dbRepub : DB := { listings := [listRepub], details := [detA] }

/-! ### Helper lemmas about list lookups -/

/-- Mapping a key-preserving row update commutes with lookup. -/
theorem find?_map_congr {α : Type} (g : α → α) (q : α → Bool)
    (hg : ∀ x, q (g x) = q x) (xs : List α) :
    (xs.map g).find? q = (xs.find? q).map g := by
  induction xs with
  | nil => rfl
  | cons a t ih =>
      by_cases h : q a = true
      · rw [List.map_cons, List.find?_cons_of_pos _ (by rw [hg a]; exact h),
          List.find?_cons_of_pos _ h]
        rfl
      · rw [List.map_cons, List.find?_cons_of_neg _ (by rw [hg a]; exact h),
          List.find?_cons_of_neg _ h, ih]

/-- A successful lookup in a prefix survives appending rows. -/
theorem find?_append_some {α : Type} (q : α → Bool) (xs ys : List α) (a : α)
    (h : xs.find? q = some a) : (xs ++ ys).find? q = some a := by
  induction xs with
  | nil => simp [List.find?] at h
  | cons x t ih =>
      by_cases hx : q x = true
      · rw [List.find?_cons_of_pos _ hx] at h
        rw [List.cons_append, List.find?_cons_of_pos _ hx]
        exact h
      · rw [List.find?_cons_of_neg _ hx] at h
        rw [List.cons_append, List.find?_cons_of_neg _ hx]
        exact ih h

/-- A failed lookup in a prefix defers to the appended rows. -/
theorem find?_append_none {α : Type} (q : α → Bool) (xs ys : List α)
    (h : xs.find? q = none) : (xs ++ ys).find? q = ys.find? q := by
  induction xs with
  | nil => rfl
  | cons x t ih =>
      by_cases hx : q x = true
      · rw [List.find?_cons_of_pos _ hx] at h; exact absurd h (by simp)
      · rw [List.find?_cons_of_neg _ hx] at h
        rw [List.cons_append, List.find?_cons_of_neg _ hx]
        exact ih h

/-- Writing a key into the previous-prices map makes it readable with the
written value. -/
theorem getKey_setKey (m : List (Nat × Int)) (k : Nat) (v : Int) :
    getKey (setKey m k v) k = some v := by
  unfold setKey getKey
  by_cases h : m.any (fun kv => kv.1 == k) = true
  · rw [if_pos h]
    have hfind : (m.map (fun kv => if kv.1 == k then (k, v) else kv)).find?
        (fun kv => kv.1 == k) =
        (m.find? (fun kv => kv.1 == k)).map
          (fun kv => if kv.1 == k then (k, v) else kv) := by
      apply find?_map_congr
      intro kv
      by_cases hk : (kv.1 == k) = true
      · rw [if_pos hk, hk]; simp
      · rw [if_neg hk]
    obtain ⟨kv₀, hmem, hkv₀⟩ := List.any_eq_true.mp h
    have hsome : (m.find? (fun kv => kv.1 == k)).isSome :=
      List.find?_isSome.mpr ⟨kv₀, hmem, hkv₀⟩
    obtain ⟨a, hfa⟩ := Option.isSome_iff_exists.mp hsome
    have hqa : (a.1 == k) = true := by
      have hq := List.find?_some hfa
      simpa using hq
    have hak : a.1 = k := by simpa using hqa
    rw [hfind, hfa]
    simp [hak]
  · rw [if_neg h]
    have hnone : m.find? (fun kv => kv.1 == k) = none := by
      rw [List.find?_eq_none]
      intro x hx hqx
      exact h (List.any_eq_true.mpr ⟨x, hx, hqx⟩)
    rw [find?_append_none _ _ _ hnone]
    simp [List.find?]

/-- Lookup after `touchListing`. -/
theorem find?_touchListing (now : Nat) (code c : String) (ls : List Listing) :
    (touchListing now code ls).find? (fun l => l.property_code == c) =
      (ls.find? (fun l => l.property_code == c)).map
        (fun l => if l.property_code == code then { l with last_seen_at := now }
                  else l) := by
  unfold touchListing
  exact find?_map_congr _ _
    (fun x => by by_cases h : (x.property_code == code) = true <;> simp [h]) ls

/-- Lookup after `republishListing`. -/
theorem find?_republishListing (now : Nat) (code c : String) (ls : List Listing) :
    (republishListing now code ls).find? (fun l => l.property_code == c) =
      (ls.find? (fun l => l.property_code == c)).map
        (fun l => if l.property_code == code then
            { l with
                is_active := true
                sold_or_withdrawn_at := none
                republished := true
                republished_at := some now
                last_seen_at := now }
          else l) := by
  unfold republishListing
  exact find?_map_congr _ _
    (fun x => by by_cases h : (x.property_code == code) = true <;> simp [h]) ls

/-- Lookup after `refreshDetails`. -/
theorem find?_refreshDetails (raw : PropertyData) (code c : String)
    (ds : List ListingDetails) :
    (refreshDetails raw code ds).find? (fun d => d.property_code == c) =
      (ds.find? (fun d => d.property_code == c)).map
        (fun d => if d.property_code == code then { d with all_fields_json := raw }
                  else d) := by
  unfold refreshDetails
  exact find?_map_congr _ _
    (fun x => by by_cases h : (x.property_code == code) = true <;> simp [h]) ds

/-- Lookup after `priceChangeDetails`. -/
theorem find?_priceChangeDetails (today : Nat) (price : Int) (raw : PropertyData)
    (code c : String) (ds : List ListingDetails) :
    (priceChangeDetails today price raw code ds).find? (fun d => d.property_code == c) =
      (ds.find? (fun d => d.property_code == c)).map
        (fun d => if d.property_code == code then
            { d with
                price := price
                previous_prices := some (setKey (d.previous_prices.getD []) today d.price)
                all_fields_json := raw }
          else d) := by
  unfold priceChangeDetails
  exact find?_map_congr _ _
    (fun x => by by_cases h : (x.property_code == code) = true <;> simp [h]) ds

/-- Core behaviour of the PRICE_CHANGE branch of `upsert_listing`: shape of
the returned action and of the two updated rows. -/
theorem upsert_price_change_core (db : DB) (now today : Nat) (code : String)
    (price : Int) (raw : PropertyData) (pub : Option Nat)
    (l : Listing) (d : ListingDetails)
    (hl : get_listing db code = some l) (hd : get_details db code = some d)
    (hne : d.price ≠ price) :
    (upsert_listing db now today code price raw pub).1 = Action.price_change ∧
    get_listing (upsert_listing db now today code price raw pub).2 code =
      some { l with last_seen_at := now } ∧
    get_details (upsert_listing db now today code price raw pub).2 code =
      some { d with
        price := price
        previous_prices := some (setKey (d.previous_prices.getD []) today d.price)
        all_fields_json := raw } := by
  have hl' : db.listings.find? (fun x => x.property_code == code) = some l := hl
  have hd' : db.details.find? (fun x => x.property_code == code) = some d := hd
  have hql : l.property_code = code := by
    simpa using List.find?_some hl'
  have hqd : d.property_code = code := by
    simpa using List.find?_some hd'
  have hpost : upsert_listing db now today code price raw pub =
      (Action.price_change,
        { listings := touchListing now code db.listings
          details := priceChangeDetails today price raw code db.details }) := by
    unfold upsert_listing
    rw [hl, hd]
    simp [hne]
  rw [hpost]
  refine ⟨rfl, ?_, ?_⟩
  · unfold get_listing
    rw [find?_touchListing, hl']
    simp [hql]
  · unfold get_details
    rw [find?_priceChangeDetails, hd']
    simp [hqd]

/-! ### Claims -/

/-- C1: a record whose property code or price is missing or falsy (empty
string, zero, or absent key) is classified SKIPPED by `process_listing`, the
store is returned unchanged, and in particular the stored `Listing` and
`ListingDetails` rows visible under every property code are unchanged. -/
theorem C1_skipped_no_mutation (db : DB) (now today : Nat) (pd : PropertyData)
    (h : pd.propertyCode = none ∨ pd.propertyCode = some "" ∨
         pd.price = none ∨ pd.price = some 0) :
    process_listing db now today pd = (Action.skipped, db) ∧
    (∀ c, get_listing (process_listing db now today pd).2 c = get_listing db c) ∧
    (∀ c, get_details (process_listing db now today pd).2 c = get_details db c) := by
  have hmain : process_listing db now today pd = (Action.skipped, db) := by
    obtain ⟨pc, pp, rest⟩ := pd
    simp only at h
    rcases h with h | h | h | h
    · subst h; cases pp <;> rfl
    · subst h; cases pp <;> simp [process_listing, show "".isEmpty = true from rfl]
    · subst h; cases pc <;> rfl
    · subst h; cases pc <;> simp [process_listing]
  exact ⟨hmain, fun c => by rw [hmain], fun c => by rw [hmain]⟩

theorem C1_witness :
    process_listing { listings := [], details := [] } 5 7
        { propertyCode := some "A1", price := some 0, otherFields := [] } =
      (Action.skipped, { listings := [], details := [] }) :=
  (C1_skipped_no_mutation { listings := [], details := [] } 5 7
    { propertyCode := some "A1", price := some 0, otherFields := [] }
    (Or.inr (Or.inr (Or.inr rfl)))).1

/-- C2: first-ever observation of a property code with a truthy code and
price yields NEW and creates a `Listing` with `first_seen_at = last_seen_at
= now`, `is_active = true`, `republished = false` and no deactivation date,
paired with a `ListingDetails` holding the given price, an empty
previous-prices map and the raw record verbatim. -/
theorem C2_new_listing (db : DB) (now today : Nat) (pd : PropertyData)
    (code : String) (p : Int)
    (hc : pd.propertyCode = some code) (hcn : code.isEmpty = false)
    (hp : pd.price = some p) (hpn : (p == 0) = false)
    (hl : get_listing db code = none) (hd : get_details db code = none) :
    (process_listing db now today pd).1 = Action.new ∧
    (∃ l, get_listing (process_listing db now today pd).2 code = some l ∧
      l.first_seen_at = now ∧ l.last_seen_at = now ∧ l.is_active = true ∧
      l.republished = false ∧ l.sold_or_withdrawn_at = none) ∧
    (∃ d, get_details (process_listing db now today pd).2 code = some d ∧
      d.price = p ∧ d.previous_prices.getD [] = [] ∧ d.all_fields_json = pd) := by
  have hstep : process_listing db now today pd =
      upsert_listing db now today code p pd none := by
    unfold process_listing
    rw [hc, hp]
    simp [hcn, hpn]
  have hpost : upsert_listing db now today code p pd none =
      (Action.new,
        { db with
            listings := db.listings ++ [newListing now code none]
            details := db.details ++ [newDetails code p pd] }) := by
    unfold upsert_listing
    rw [hl]
  rw [hstep, hpost]
  refine ⟨rfl, ⟨newListing now code none, ?_, rfl, rfl, rfl, rfl, rfl⟩,
    ⟨newDetails code p pd, ?_, rfl, rfl, rfl⟩⟩
  · unfold get_listing
    have hl' : db.listings.find? (fun l => l.property_code == code) = none := hl
    rw [show ({ db with
        listings := db.listings ++ [newListing now code none]
        details := db.details ++ [newDetails code p pd] } : DB).listings =
      db.listings ++ [newListing now code none] from rfl]
    rw [find?_append_none _ _ _ hl']
    rw [List.find?_cons_of_pos _ (by simp [newListing])]
  · unfold get_details
    have hd' : db.details.find? (fun d => d.property_code == code) = none := hd
    rw [show ({ db with
        listings := db.listings ++ [newListing now code none]
        details := db.details ++ [newDetails code p pd] } : DB).details =
      db.details ++ [newDetails code p pd] from rfl]
    rw [find?_append_none _ _ _ hd']
    rw [List.find?_cons_of_pos _ (by simp [newDetails])]

theorem C2_witness :
    (process_listing { listings := [], details := [] } 5 7
        { propertyCode := some "A1", price := some 100, otherFields := [] }).1 =
      Action.new :=
  (C2_new_listing { listings := [], details := [] } 5 7
    { propertyCode := some "A1", price := some 100, otherFields := [] }
    "A1" 100 rfl rfl rfl (by decide) rfl rfl).1

/-- C3: when details exist and the stored price differs from the incoming
one, `upsert_listing` returns PRICE_CHANGE; afterwards the stored price is
the incoming one, the previous-prices map holds the old price under today's
date, raw fields are replaced, `last_seen_at` is `now`, and all other
listing fields (`is_active`, `republished`, dates) are untouched. -/
theorem C3_price_change (db : DB) (now today : Nat) (code : String)
    (price : Int) (raw : PropertyData) (pub : Option Nat)
    (l : Listing) (d : ListingDetails)
    (hl : get_listing db code = some l) (hd : get_details db code = some d)
    (hne : d.price ≠ price) :
    (upsert_listing db now today code price raw pub).1 = Action.price_change ∧
    get_listing (upsert_listing db now today code price raw pub).2 code =
      some { l with last_seen_at := now } ∧
    (∃ d2, get_details (upsert_listing db now today code price raw pub).2 code =
        some d2 ∧
      d2.price = price ∧
      getKey (d2.previous_prices.getD []) today = some d.price ∧
      d2.all_fields_json = raw) := by
  obtain ⟨hact, hlook, hdet⟩ :=
    upsert_price_change_core db now today code price raw pub l d hl hd hne
  refine ⟨hact, hlook,
    ⟨{ d with
        price := price
        previous_prices := some (setKey (d.previous_prices.getD []) today d.price)
        all_fields_json := raw }, hdet, rfl, ?_, rfl⟩⟩
  exact getKey_setKey (d.previous_prices.getD []) today d.price

theorem C3_witness :
    (upsert_listing dbActive 5 7 "A1" 90 rawB none).1 = Action.price_change :=
  (C3_price_change dbActive 5 7 "A1" 90 rawB none listA detA rfl rfl
    (by decide)).1

/-- C4: an inactive listing observed again with an unchanged price (or with
no details row) is REPUBLISHED: `is_active` becomes true, the deactivation
date is cleared, `republished` is set with `republished_at = now`,
`last_seen_at` becomes `now`, raw fields are refreshed when details exist,
and the stored price is untouched. -/
theorem C4_republished (db : DB) (now today : Nat) (code : String)
    (price : Int) (raw : PropertyData) (pub : Option Nat) (l : Listing)
    (hl : get_listing db code = some l) (hin : l.is_active = false)
    (hd : ∀ d, get_details db code = some d → d.price = price) :
    (upsert_listing db now today code price raw pub).1 = Action.republished ∧
    get_listing (upsert_listing db now today code price raw pub).2 code =
      some { l with
        is_active := true
        sold_or_withdrawn_at := none
        republished := true
        republished_at := some now
        last_seen_at := now } ∧
    (∀ d, get_details db code = some d →
      get_details (upsert_listing db now today code price raw pub).2 code =
        some { d with all_fields_json := raw }) ∧
    (get_details db code = none →
      get_details (upsert_listing db now today code price raw pub).2 code =
        none) := by
  have hl' : db.listings.find? (fun x => x.property_code == code) = some l := hl
  have hql : l.property_code = code := by
    simpa using List.find?_some hl'
  cases hcase : get_details db code with
  | none =>
      have hpost : upsert_listing db now today code price raw pub =
          (Action.republished,
            { listings := republishListing now code db.listings
              details := db.details }) := by
        unfold upsert_listing
        rw [hl, hcase]
        simp [hin]
      rw [hpost]
      refine ⟨rfl, ?_, ?_, ?_⟩
      · unfold get_listing
        rw [find?_republishListing, hl']
        simp [hql]
      · intro d hd2
        exact Option.noConfusion hd2
      · intro _
        exact hcase
  | some d =>
      have hdp : d.price = price := hd d hcase
      have hd' : db.details.find? (fun x => x.property_code == code) = some d :=
        hcase
      have hqd : d.property_code = code := by
        simpa using List.find?_some hd'
      have hpost : upsert_listing db now today code price raw pub =
          (Action.republished,
            { listings := republishListing now code db.listings
              details := refreshDetails raw code db.details }) := by
        unfold upsert_listing
        rw [hl, hcase]
        simp [hdp, hin]
      rw [hpost]
      refine ⟨rfl, ?_, ?_, ?_⟩
      · unfold get_listing
        rw [find?_republishListing, hl']
        simp [hql]
      · intro d2 hd2
        obtain rfl : d = d2 := by injection hd2
        unfold get_details
        rw [find?_refreshDetails, hd']
        simp [hqd]
      · intro hnone
        exact Option.noConfusion hnone

theorem C4_witness :
    (upsert_listing dbInactive 5 7 "A1" 100 rawA none).1 =
      Action.republished := by
  refine (C4_republished dbInactive 5 7 "A1" 100 rawA none listInactive
    rfl rfl ?_).1
  intro d hd2
  have hd3 : detA = d := by
    have : some detA = some d := hd2
    injection this
  rw [← hd3]
  rfl

/-- C5: an active listing with unchanged price is classified ACTIVE and only
`last_seen_at` advances on the listing (all other listing fields are
unchanged); details keep price and previous prices, only the raw fields are
refreshed. -/
theorem C5_active_frame (db : DB) (now today : Nat) (code : String)
    (price : Int) (raw : PropertyData) (pub : Option Nat) (l : Listing)
    (hl : get_listing db code = some l) (hact : l.is_active = true)
    (hd : ∀ d, get_details db code = some d → d.price = price) :
    (upsert_listing db now today code price raw pub).1 = Action.active ∧
    get_listing (upsert_listing db now today code price raw pub).2 code =
      some { l with last_seen_at := now } ∧
    (∀ d, get_details db code = some d →
      get_details (upsert_listing db now today code price raw pub).2 code =
        some { d with all_fields_json := raw }) ∧
    (get_details db code = none →
      get_details (upsert_listing db now today code price raw pub).2 code =
        none) := by
  have hl' : db.listings.find? (fun x => x.property_code == code) = some l := hl
  have hql : l.property_code = code := by
    simpa using List.find?_some hl'
  cases hcase : get_details db code with
  | none =>
      have hpost : upsert_listing db now today code price raw pub =
          (Action.active,
            { listings := touchListing now code db.listings
              details := db.details }) := by
        unfold upsert_listing
        rw [hl, hcase]
        simp [hact]
      rw [hpost]
      refine ⟨rfl, ?_, ?_, ?_⟩
      · unfold get_listing
        rw [find?_touchListing, hl']
        simp [hql]
      · intro d hd2
        exact Option.noConfusion hd2
      · intro _
        exact hcase
  | some d =>
      have hdp : d.price = price := hd d hcase
      have hd' : db.details.find? (fun x => x.property_code == code) = some d :=
        hcase
      have hqd : d.property_code = code := by
        simpa using List.find?_some hd'
      have hpost : upsert_listing db now today code price raw pub =
          (Action.active,
            { listings := touchListing now code db.listings
              details := refreshDetails raw code db.details }) := by
        unfold upsert_listing
        rw [hl, hcase]
        simp [hdp, hact]
      rw [hpost]
      refine ⟨rfl, ?_, ?_, ?_⟩
      · unfold get_listing
        rw [find?_touchListing, hl']
        simp [hql]
      · intro d2 hd2
        obtain rfl : d = d2 := by injection hd2
        unfold get_details
        rw [find?_refreshDetails, hd']
        simp [hqd]
      · intro hnone
        exact Option.noConfusion hnone

theorem C5_witness :
    (upsert_listing dbActive 5 7 "A1" 100 rawA none).1 = Action.active := by
  refine (C5_active_frame dbActive 5 7 "A1" 100 rawA none listA
    rfl rfl ?_).1
  intro d hd2
  have hd3 : detA = d := by
    have : some detA = some d := hd2
    injection this
  rw [← hd3]
  rfl

/-- C6: an inactive listing reappearing with a different price is classified
PRICE_CHANGE, not REPUBLISHED; afterwards `is_active` is still false,
`republished` is unchanged and the deactivation date is not cleared. -/
theorem C6_inactive_price_change (db : DB) (now today : Nat) (code : String)
    (price : Int) (raw : PropertyData) (pub : Option Nat)
    (l : Listing) (d : ListingDetails)
    (hl : get_listing db code = some l) (hin : l.is_active = false)
    (hd : get_details db code = some d) (hne : d.price ≠ price) :
    (upsert_listing db now today code price raw pub).1 = Action.price_change ∧
    ∃ l2, get_listing (upsert_listing db now today code price raw pub).2 code =
        some l2 ∧
      l2.is_active = false ∧ l2.republished = l.republished ∧
      l2.sold_or_withdrawn_at = l.sold_or_withdrawn_at := by
  obtain ⟨hact, hlook, -⟩ :=
    upsert_price_change_core db now today code price raw pub l d hl hd hne
  exact ⟨hact, { l with last_seen_at := now }, hlook, hin, rfl, rfl⟩

theorem C6_witness :
    (upsert_listing dbInactive 5 7 "A1" 90 rawB none).1 =
      Action.price_change :=
  (C6_inactive_price_change dbInactive 5 7 "A1" 90 rawB none listInactive detA
    rfl rfl rfl (by decide)).1

/-- C7: the bulk deactivation flips to inactive exactly the listings that are
active with `last_seen_at` strictly before the watermark, stamping today's
date as deactivation date; every other listing (seen at or after the
watermark, or already inactive) is untouched, the details table is
untouched, and the returned count is the number of flipped rows. -/
theorem C7_mark_as_inactive (db : DB) (T today : Nat) (i : Nat) (l : Listing)
    (hi : db.listings[i]? = some l) :
    ((l.is_active = true ∧ l.last_seen_at < T →
        (mark_as_inactive db today T).2.listings[i]? =
          some { l with is_active := false, sold_or_withdrawn_at := some today }) ∧
     (l.is_active = false ∨ T ≤ l.last_seen_at →
        (mark_as_inactive db today T).2.listings[i]? = some l)) ∧
    (mark_as_inactive db today T).1 =
      db.listings.countP (fun x => x.is_active && decide (x.last_seen_at < T)) ∧
    (mark_as_inactive db today T).2.details = db.details := by
  have hmap : (mark_as_inactive db today T).2.listings[i]? =
      some (staleFlip today T l) := by
    show (db.listings.map (staleFlip today T))[i]? = _
    rw [List.getElem?_map, hi]
    rfl
  refine ⟨⟨?_, ?_⟩, ?_, rfl⟩
  · intro hcond
    rw [hmap]
    unfold staleFlip
    rw [if_pos hcond]
  · intro hcond
    have hneg : ¬ (l.is_active = true ∧ l.last_seen_at < T) := by
      rcases hcond with h | h
      · rintro ⟨h1, -⟩
        rw [h] at h1
        exact Bool.noConfusion h1
      · rintro ⟨-, h2⟩
        exact absurd h2 (not_lt.mpr h)
    rw [hmap]
    unfold staleFlip
    rw [if_neg hneg]
  · rw [List.countP_eq_length_filter]
    rfl

theorem C7_witness :
    (mark_as_inactive dbScan 7 5).2.listings[0]? =
      some { listStale with
        is_active := false
        sold_or_withdrawn_at := some 7 } :=
  ((C7_mark_as_inactive dbScan 5 7 0 listStale rfl).1).1 ⟨rfl, by decide⟩

/-- C8: reconciling the same well-formed record twice in succession against a
store that does not yet know its property code yields NEW on the first call
and ACTIVE on the second, never NEW twice. -/
theorem C8_new_then_active (db : DB) (now today now2 today2 : Nat)
    (pd : PropertyData) (code : String) (p : Int)
    (hc : pd.propertyCode = some code) (hcn : code.isEmpty = false)
    (hp : pd.price = some p) (hpn : (p == 0) = false)
    (hl : get_listing db code = none) (hd : get_details db code = none) :
    (process_listing db now today pd).1 = Action.new ∧
    (process_listing (process_listing db now today pd).2 now2 today2 pd).1 =
      Action.active := by
  have hstep : ∀ (n t : Nat) (st : DB), process_listing st n t pd =
      upsert_listing st n t code p pd none := by
    intro n t st
    unfold process_listing
    rw [hc, hp]
    simp [hcn, hpn]
  have hpost : upsert_listing db now today code p pd none =
      (Action.new,
        { db with
            listings := db.listings ++ [newListing now code none]
            details := db.details ++ [newDetails code p pd] }) := by
    unfold upsert_listing
    rw [hl]
  have h1 : process_listing db now today pd =
      (Action.new,
        { db with
            listings := db.listings ++ [newListing now code none]
            details := db.details ++ [newDetails code p pd] }) := by
    rw [hstep, hpost]
  have hl1 : get_listing
      ({ db with
          listings := db.listings ++ [newListing now code none]
          details := db.details ++ [newDetails code p pd] } : DB) code =
      some (newListing now code none) := by
    unfold get_listing
    have hl' : db.listings.find? (fun x => x.property_code == code) = none := hl
    rw [show ({ db with
        listings := db.listings ++ [newListing now code none]
        details := db.details ++ [newDetails code p pd] } : DB).listings =
      db.listings ++ [newListing now code none] from rfl]
    rw [find?_append_none _ _ _ hl']
    rw [List.find?_cons_of_pos _ (by simp [newListing])]
  have hd1 : get_details
      ({ db with
          listings := db.listings ++ [newListing now code none]
          details := db.details ++ [newDetails code p pd] } : DB) code =
      some (newDetails code p pd) := by
    unfold get_details
    have hd' : db.details.find? (fun x => x.property_code == code) = none := hd
    rw [show ({ db with
        listings := db.listings ++ [newListing now code none]
        details := db.details ++ [newDetails code p pd] } : DB).details =
      db.details ++ [newDetails code p pd] from rfl]
    rw [find?_append_none _ _ _ hd']
    rw [List.find?_cons_of_pos _ (by simp [newDetails])]
  refine ⟨by rw [h1], ?_⟩
  rw [h1]
  show (process_listing
    ({ db with
        listings := db.listings ++ [newListing now code none]
        details := db.details ++ [newDetails code p pd] } : DB)
    now2 today2 pd).1 = Action.active
  rw [hstep]
  unfold upsert_listing
  rw [hl1, hd1]
  simp [newDetails, newListing]

theorem C8_witness :
    (process_listing { listings := [], details := [] } 5 7 rawA).1 =
        Action.new ∧
      (process_listing
          (process_listing { listings := [], details := [] } 5 7 rawA).2
          6 8 rawA).1 = Action.active :=
  C8_new_then_active { listings := [], details := [] } 5 7 6 8 rawA "A1" 100
    rfl rfl rfl (by decide) rfl rfl

/-- `touchListing` keeps the seen-ordering invariant when `now` is no earlier
than any first-seen timestamp. -/
theorem inv_touchListing (now : Nat) (code : String) (ls : List Listing)
    (hInv : ∀ l ∈ ls, l.first_seen_at ≤ l.last_seen_at)
    (hnow : ∀ l ∈ ls, l.first_seen_at ≤ now) :
    ∀ l ∈ touchListing now code ls, l.first_seen_at ≤ l.last_seen_at := by
  intro l hmem
  obtain ⟨x, hx, rfl⟩ := List.mem_map.mp hmem
  by_cases h : (x.property_code == code) = true
  · simp only [h, if_true]
    exact hnow x hx
  · simp only [h, if_false]
    exact hInv x hx

/-- `republishListing` keeps the seen-ordering invariant when `now` is no
earlier than any first-seen timestamp. -/
theorem inv_republishListing (now : Nat) (code : String) (ls : List Listing)
    (hInv : ∀ l ∈ ls, l.first_seen_at ≤ l.last_seen_at)
    (hnow : ∀ l ∈ ls, l.first_seen_at ≤ now) :
    ∀ l ∈ republishListing now code ls, l.first_seen_at ≤ l.last_seen_at := by
  intro l hmem
  obtain ⟨x, hx, rfl⟩ := List.mem_map.mp hmem
  by_cases h : (x.property_code == code) = true
  · simp only [h, if_true]
    exact hnow x hx
  · simp only [h, if_false]
    exact hInv x hx

/-- `staleFlip` does not touch the timestamps. -/
theorem inv_staleFlip (today T : Nat) (ls : List Listing)
    (hInv : ∀ l ∈ ls, l.first_seen_at ≤ l.last_seen_at) :
    ∀ l ∈ ls.map (staleFlip today T), l.first_seen_at ≤ l.last_seen_at := by
  intro l hmem
  obtain ⟨x, hx, rfl⟩ := List.mem_map.mp hmem
  unfold staleFlip
  by_cases h : (x.is_active = true ∧ x.last_seen_at < T)
  · simp only [if_pos h]
    exact hInv x hx
  · simp only [if_neg h]
    exact hInv x hx

/-- Every branch of `upsert_listing` keeps the seen-ordering invariant. -/
theorem inv_upsert (db : DB) (now today : Nat) (code : String) (p : Int)
    (raw : PropertyData) (pub : Option Nat)
    (hInv : Inv db) (hnow : ∀ l ∈ db.listings, l.first_seen_at ≤ now) :
    Inv (upsert_listing db now today code p raw pub).2 := by
  cases hcl : get_listing db code with
  | none =>
      have hpost : (upsert_listing db now today code p raw pub).2 =
          { db with
              listings := db.listings ++ [newListing now code pub]
              details := db.details ++ [newDetails code p raw] } := by
        unfold upsert_listing
        rw [hcl]
      rw [hpost]
      intro l hmem
      rcases List.mem_append.mp hmem with h | h
      · exact hInv l h
      · obtain rfl := List.mem_singleton.mp h
        exact Nat.le_refl now
  | some l0 =>
      cases hcd : get_details db code with
      | some d0 =>
          by_cases hne : d0.price ≠ p
          · have hpost : (upsert_listing db now today code p raw pub).2 =
                { listings := touchListing now code db.listings
                  details := priceChangeDetails today p raw code db.details } := by
              unfold upsert_listing
              rw [hcl, hcd]
              simp [hne]
            rw [hpost]
            exact inv_touchListing now code db.listings hInv hnow
          · have heq : d0.price = p := not_not.mp hne
            by_cases hact : l0.is_active = false
            · have hpost : (upsert_listing db now today code p raw pub).2 =
                  { listings := republishListing now code db.listings
                    details := refreshDetails raw code db.details } := by
                unfold upsert_listing
                rw [hcl, hcd]
                simp [heq, hact]
              rw [hpost]
              exact inv_republishListing now code db.listings hInv hnow
            · have hpost : (upsert_listing db now today code p raw pub).2 =
                  { listings := touchListing now code db.listings
                    details := refreshDetails raw code db.details } := by
                unfold upsert_listing
                rw [hcl, hcd]
                simp [heq, hact]
              rw [hpost]
              exact inv_touchListing now code db.listings hInv hnow
      | none =>
          by_cases hact : l0.is_active = false
          · have hpost : (upsert_listing db now today code p raw pub).2 =
                { listings := republishListing now code db.listings
                  details := db.details } := by
              unfold upsert_listing
              rw [hcl, hcd]
              simp [hact]
            rw [hpost]
            exact inv_republishListing now code db.listings hInv hnow
          · have hpost : (upsert_listing db now today code p raw pub).2 =
                { listings := touchListing now code db.listings
                  details := db.details } := by
              unfold upsert_listing
              rw [hcl, hcd]
              simp [hact]
            rw [hpost]
            exact inv_touchListing now code db.listings hInv hnow

/-- C9: the invariant `last_seen_at >= first_seen_at` is preserved by every
operation — all branches of the reconciler (including the collectors' skip
path) and the bulk deactivation — provided the supplied `now` is no earlier
than any stored `first_seen_at`. -/
theorem C9_invariant_preserved (db : DB) (now today T : Nat) (code : String)
    (p : Int) (raw : PropertyData) (pub : Option Nat) (pd : PropertyData)
    (hInv : Inv db) (hnow : ∀ l ∈ db.listings, l.first_seen_at ≤ now) :
    Inv (upsert_listing db now today code p raw pub).2 ∧
    Inv (process_listing db now today pd).2 ∧
    Inv (mark_as_inactive db today T).2 := by
  refine ⟨inv_upsert db now today code p raw pub hInv hnow, ?_, ?_⟩
  · obtain ⟨pc, pp, rest⟩ := pd
    cases pc with
    | none => exact hInv
    | some c0 =>
        cases pp with
        | none => exact hInv
        | some v =>
            by_cases hguard : (c0.isEmpty || (v == 0)) = true
            · have hskip : process_listing db now today
                  { propertyCode := some c0, price := some v,
                    otherFields := rest } = (Action.skipped, db) := by
                unfold process_listing
                simp [hguard]
              rw [hskip]
              exact hInv
            · have hpost : process_listing db now today
                  { propertyCode := some c0, price := some v,
                    otherFields := rest } =
                  upsert_listing db now today c0 v
                    { propertyCode := some c0, price := some v,
                      otherFields := rest } none := by
                unfold process_listing
                simp [hguard]
              rw [hpost]
              exact inv_upsert db now today c0 v _ none hInv hnow
  · show ∀ l ∈ (mark_as_inactive db today T).2.listings,
      l.first_seen_at ≤ l.last_seen_at
    intro l hmem
    exact inv_staleFlip today T db.listings hInv l hmem

theorem C9_witness : Inv (upsert_listing dbActive 5 7 "A1" 90 rawB none).2 :=
  (C9_invariant_preserved dbActive 5 7 5 "A1" 90 rawB none rawA
    (by
      show ∀ l ∈ dbActive.listings, l.first_seen_at ≤ l.last_seen_at
      intro l hl
      obtain rfl := List.mem_singleton.mp hl
      decide)
    (by
      intro l hl
      obtain rfl := List.mem_singleton.mp hl
      decide)).1

/-- A key-preserving row update that never unsets the republished flag keeps
a republished row visible as republished. -/
theorem find?_republished_mono (g : Listing → Listing) (c : String)
    (ls : List Listing) (l : Listing)
    (hg : ∀ x, (g x).property_code = x.property_code)
    (hgr : ∀ x, x.republished = true → (g x).republished = true)
    (hc : ls.find? (fun x => x.property_code == c) = some l)
    (hr : l.republished = true) :
    ∃ l1, (ls.map g).find? (fun x => x.property_code == c) = some l1 ∧
      l1.republished = true := by
  refine ⟨g l, ?_, hgr l hr⟩
  rw [find?_map_congr g _ (fun x => by rw [hg x]) ls, hc]
  rfl

/-- No branch of `upsert_listing` ever unsets a republished flag. -/
theorem republished_mono_upsert (db : DB) (now today : Nat) (code : String)
    (p : Int) (raw : PropertyData) (pub : Option Nat) (c : String) (l : Listing)
    (hc : get_listing db c = some l) (hr : l.republished = true) :
    ∃ l1, get_listing (upsert_listing db now today code p raw pub).2 c =
      some l1 ∧ l1.republished = true := by
  have hc' : db.listings.find? (fun x => x.property_code == c) = some l := hc
  have htouch : ∃ l1, (touchListing now code db.listings).find?
      (fun x => x.property_code == c) = some l1 ∧ l1.republished = true := by
    apply find?_republished_mono _ c db.listings l _ _ hc' hr
    · intro x
      by_cases h : (x.property_code == code) = true <;> simp [h]
    · intro x hx
      by_cases h : (x.property_code == code) = true <;> simp [h, hx]
  have hrepub : ∃ l1, (republishListing now code db.listings).find?
      (fun x => x.property_code == c) = some l1 ∧ l1.republished = true := by
    apply find?_republished_mono _ c db.listings l _ _ hc' hr
    · intro x
      by_cases h : (x.property_code == code) = true <;> simp [h]
    · intro x hx
      by_cases h : (x.property_code == code) = true <;> simp [h, hx]
  cases hcl : get_listing db code with
  | none =>
      refine ⟨l, ?_, hr⟩
      have hpost : (upsert_listing db now today code p raw pub).2 =
          { db with
              listings := db.listings ++ [newListing now code pub]
              details := db.details ++ [newDetails code p raw] } := by
        unfold upsert_listing
        rw [hcl]
      rw [hpost]
      exact find?_append_some _ _ _ _ hc'
  | some l0 =>
      cases hcd : get_details db code with
      | some d0 =>
          by_cases hne : d0.price ≠ p
          · have hpost : (upsert_listing db now today code p raw pub).2 =
                { listings := touchListing now code db.listings
                  details := priceChangeDetails today p raw code db.details } := by
              unfold upsert_listing
              rw [hcl, hcd]
              simp [hne]
            rw [hpost]
            exact htouch
          · have heq : d0.price = p := not_not.mp hne
            by_cases hact : l0.is_active = false
            · have hpost : (upsert_listing db now today code p raw pub).2 =
                  { listings := republishListing now code db.listings
                    details := refreshDetails raw code db.details } := by
                unfold upsert_listing
                rw [hcl, hcd]
                simp [heq, hact]
              rw [hpost]
              exact hrepub
            · have hpost : (upsert_listing db now today code p raw pub).2 =
                  { listings := touchListing now code db.listings
                    details := refreshDetails raw code db.details } := by
                unfold upsert_listing
                rw [hcl, hcd]
                simp [heq, hact]
              rw [hpost]
              exact htouch
      | none =>
          by_cases hact : l0.is_active = false
          · have hpost : (upsert_listing db now today code p raw pub).2 =
                { listings := republishListing now code db.listings
                  details := db.details } := by
              unfold upsert_listing
              rw [hcl, hcd]
              simp [hact]
            rw [hpost]
            exact hrepub
          · have hpost : (upsert_listing db now today code p raw pub).2 =
                { listings := touchListing now code db.listings
                  details := db.details } := by
              unfold upsert_listing
              rw [hcl, hcd]
              simp [hact]
            rw [hpost]
            exact htouch

/-- C10: the republished flag is monotone — once true for a stored listing it
stays true across every branch of the reconciler (upsert or skip) and across
the bulk deactivation. -/
theorem C10_republished_monotone (db : DB) (now today T : Nat) (code : String)
    (p : Int) (raw : PropertyData) (pub : Option Nat) (pd : PropertyData)
    (c : String) (l : Listing)
    (hc : get_listing db c = some l) (hr : l.republished = true) :
    (∃ l1, get_listing (upsert_listing db now today code p raw pub).2 c =
        some l1 ∧ l1.republished = true) ∧
    (∃ l2, get_listing (process_listing db now today pd).2 c =
        some l2 ∧ l2.republished = true) ∧
    (∃ l3, get_listing (mark_as_inactive db today T).2 c =
        some l3 ∧ l3.republished = true) := by
  refine ⟨republished_mono_upsert db now today code p raw pub c l hc hr,
    ?_, ?_⟩
  · obtain ⟨pc, pp, rest⟩ := pd
    cases pc with
    | none => exact ⟨l, hc, hr⟩
    | some c0 =>
        cases pp with
        | none => exact ⟨l, hc, hr⟩
        | some v =>
            by_cases hguard : (c0.isEmpty || (v == 0)) = true
            · have hskip : process_listing db now today
                  { propertyCode := some c0, price := some v,
                    otherFields := rest } = (Action.skipped, db) := by
                unfold process_listing
                simp [hguard]
              rw [hskip]
              exact ⟨l, hc, hr⟩
            · have hpost : process_listing db now today
                  { propertyCode := some c0, price := some v,
                    otherFields := rest } =
                  upsert_listing db now today c0 v
                    { propertyCode := some c0, price := some v,
                      otherFields := rest } none := by
                unfold process_listing
                simp [hguard]
              rw [hpost]
              exact republished_mono_upsert db now today c0 v _ none c l hc hr
  · have hc' : db.listings.find? (fun x => x.property_code == c) = some l := hc
    exact find?_republished_mono (staleFlip today T) c db.listings l
      (fun x => by
        unfold staleFlip
        by_cases h : (x.is_active = true ∧ x.last_seen_at < T) <;> simp [h])
      (fun x hx => by
        unfold staleFlip
        by_cases h : (x.is_active = true ∧ x.last_seen_at < T) <;> simp [h, hx])
      hc' hr

theorem C10_witness :
    ∃ l1, get_listing (upsert_listing dbRepub 5 7 "A1" 90 rawB none).2 "A1" =
      some l1 ∧ l1.republished = true :=
  (C10_republished_monotone dbRepub 5 7 5 "A1" 90 rawB none rawA "A1"
    listRepub rfl rfl).1

end ListaCollection
